import Mathlib

set_option maxRecDepth 10000

/-!
Verification of the fleetsim fleet state server (src/fleet_state_server/main.go).

The server is embedded shallowly:
* inbound datagram payloads are `List Char` (the Go code works on `string`);
* `strings.Split(message, " ")` is `splitSpace`;
* `time.Parse(time.RFC3339Nano, ...)` and `Format(time.RFC3339Nano)` are
  `parseRFC3339` / `formatRFC3339Nano` (modelling the acceptance of Go's
  layout-based parser, including its documented leniencies — one-digit
  hour, comma fractional separator, zone offsets up to 24:00/xx:60 — and
  the trailing-zero-stripping formatting);
* `strconv.ParseFloat` is `parseFloatDec`, parsing the decimal syntax into
  an exact scaled-decimal value `Dec` and failing with a range error, as Go
  does, on magnitudes that overflow float64 (hexadecimal literals,
  underscores and the Inf/NaN literals accepted by the Go standard library
  are not modelled; no claim involves them);
* float64 coordinate values are idealised as exact decimals (`Dec`, an
  integer mantissa over a power of ten), the trigonometric distance
  computation as real arithmetic `ℝ`;
* the float64 division `distance / duration` is `goDiv`, which keeps the
  IEEE-754 behaviour at a zero denominator (infinities and NaN);
* the mutable Go maps become functions `List Char → Option _` inside an
  explicit `ServerState`, and each handler returns the new state together
  with the list of observable outputs (sent datagrams, logged diagnostics);
* the success or failure of `net.DialUDP` / `conn.Write` for each loop
  iteration of `sendSubscriberUpdate` is an environment `ℕ → SendOutcome`
  supplied as input.
-/

namespace Fleetsim

/-- Numeric value of a decimal digit character. -/
def digitVal (c : Char) : ℕ := c.toNat - 48

/-- Decimal digit character for `n % 10`. -/
def digitChar (n : ℕ) : Char := Char.ofNat (48 + n % 10)

/-- Split a character list around every single space character, keeping empty
tokens, exactly like Go's `strings.Split(s, " ")` (so the result is never
empty, and splitting the empty string yields one empty token). -/
def splitSpace : List Char → List (List Char)
  | [] => [[]]
  | c :: rest =>
    match splitSpace rest with
    | [] => [[]]
    | t :: ts => if c = ' ' then [] :: t :: ts else (c :: t) :: ts

/-- Longest leading run of decimal digits, and the remainder. -/
def spanDigits : List Char → List Char × List Char
  | [] => ([], [])
  | c :: cs =>
    if c.isDigit then
      let p := spanDigits cs
      (c :: p.1, p.2)
    else ([], c :: cs)

/-- Value of a digit string read in base 10. -/
def natOfDigits (ds : List Char) : ℕ := ds.foldl (fun a c => 10 * a + digitVal c) 0

/-- Render a natural number in decimal (auxiliary, fuel-driven). -/
def natCharsAux : ℕ → ℕ → List Char
  | 0, _ => []
  | fuel + 1, n => if n < 10 then [digitChar n] else natCharsAux fuel (n / 10) ++ [digitChar (n % 10)]

/-- Render a natural number in decimal. -/
def natChars (n : ℕ) : List Char := natCharsAux (n + 1) n

/-- Render a natural number as exactly two decimal digits. -/
def pad2 (n : ℕ) : List Char := [digitChar (n / 10 % 10), digitChar (n % 10)]

/-- Render a natural number as exactly four decimal digits. -/
def pad4 (n : ℕ) : List Char :=
  [digitChar (n / 1000 % 10), digitChar (n / 100 % 10), digitChar (n / 10 % 10), digitChar (n % 10)]

/-- Render a natural number as exactly nine decimal digits. -/
def pad9 (n : ℕ) : List Char :=
  [digitChar (n / 100000000 % 10), digitChar (n / 10000000 % 10), digitChar (n / 1000000 % 10),
   digitChar (n / 100000 % 10), digitChar (n / 10000 % 10), digitChar (n / 1000 % 10),
   digitChar (n / 100 % 10), digitChar (n / 10 % 10), digitChar (n % 10)]

/-- Render a natural number as exactly six decimal digits. -/
def pad6 (n : ℕ) : List Char :=
  [digitChar (n / 100000 % 10), digitChar (n / 10000 % 10), digitChar (n / 1000 % 10),
   digitChar (n / 100 % 10), digitChar (n / 10 % 10), digitChar (n % 10)]

/-- Drop trailing zero characters (used for the RFC 3339 fractional part). -/
def stripZeros (l : List Char) : List Char := (l.reverse.dropWhile (fun c => c = '0')).reverse

/-- Wall-clock timestamp as parsed by Go's `time.Parse(time.RFC3339Nano, _)`:
the broken-down calendar fields plus the fixed numeric zone offset in
minutes. Go keeps exactly this information in the `time.Time` it returns
(the wall clock and the parsed offset), and `Format` reproduces it. -/
structure Timestamp where
  year : ℕ
  month : ℕ
  day : ℕ
  hour : ℕ
  minute : ℕ
  second : ℕ
  nanos : ℕ
  offsetMin : ℤ
  deriving DecidableEq, Repr

/-- Leap-year test of the proleptic Gregorian calendar. -/
def isLeap (y : ℕ) : Bool := decide ((y % 4 = 0 ∧ y % 100 ≠ 0) ∨ y % 400 = 0)

/-- Number of days in a month (0 for an invalid month number). -/
def daysInMonth (y m : ℕ) : ℕ :=
  match m with
  | 1 => 31
  | 2 => if isLeap y then 29 else 28
  | 3 => 31
  | 4 => 30
  | 5 => 31
  | 6 => 30
  | 7 => 31
  | 8 => 31
  | 9 => 30
  | 10 => 31
  | 11 => 30
  | 12 => 31
  | _ => 0

/-- Parse the numeric zone offset (a trailing `Z` or `±hh:mm`), returning
the offset in minutes. Go's layout parser bounds the fields with `hr > 24`
and `mm > 60` ("as some people do write offsets of 24 hours or 60
minutes"), so offsets up to `24:00` and `xx:60` are accepted. -/
def parseOffset : List Char → Option ℤ
  | ['Z'] => some 0
  | ['+', a, b, ':', c, d] =>
    if a.isDigit ∧ b.isDigit ∧ c.isDigit ∧ d.isDigit then
      let hh := 10 * digitVal a + digitVal b
      let mm := 10 * digitVal c + digitVal d
      if hh ≤ 24 ∧ mm ≤ 60 then some (60 * hh + mm) else none
    else none
  | ['-', a, b, ':', c, d] =>
    if a.isDigit ∧ b.isDigit ∧ c.isDigit ∧ d.isDigit then
      let hh := 10 * digitVal a + digitVal b
      let mm := 10 * digitVal c + digitVal d
      if hh ≤ 24 ∧ mm ≤ 60 then some (-(60 * (hh : ℤ) + mm)) else none
    else none
  | _ => none

/-- Nanosecond value of a fractional-second digit string (at least one digit;
digits beyond the ninth are ignored, as Go truncates to nanoseconds). -/
def nsOfDigits (ds : List Char) : ℕ :=
  let d9 := ds.take 9
  natOfDigits d9 * 10 ^ (9 - d9.length)

/-- Fractional-second digits (at least one) followed by the zone offset. -/
def parseFracTail (rest : List Char) : Option (ℕ × ℤ) :=
  let p := spanDigits rest
  if p.1.length = 0 then none
  else
    match parseOffset p.2 with
    | some off => some (nsOfDigits p.1, off)
    | none => none

/-- Parse the optional fractional-second part followed by the zone offset.
Go's layout parser accepts either `.` or `,` as the fractional separator. -/
def parseFracOffset : List Char → Option (ℕ × ℤ)
  | '.' :: rest => parseFracTail rest
  | ',' :: rest => parseFracTail rest
  | rest =>
    match parseOffset rest with
    | some off => some (0, off)
    | none => none

/-- Parse the hour field. The `15` layout code is the one time-of-day field
Go reads with `getnum(value, false)`: two digits when the second character
is a digit, one digit otherwise. -/
def parseHour : List Char → Option (ℕ × List Char)
  | c1 :: c2 :: rest =>
    if c1.isDigit then
      if c2.isDigit then some (10 * digitVal c1 + digitVal c2, rest)
      else some (digitVal c1, c2 :: rest)
    else none
  | [c1] => if c1.isDigit then some (digitVal c1, []) else none
  | [] => none

/-- Parse a timestamp as Go's `time.Parse(time.RFC3339Nano, _)` accepts it:
`YYYY-MM-DDThh:mm:ss[.digits](Z|±hh:mm)` with all calendar fields
range-checked (month 1-12, day valid for the month, hour 0-23,
minute/second 0-59), plus the leniencies of the general layout parser that
`Parse` falls back to: a one-digit hour, a comma fractional separator, and
zone offsets up to `24:00`/`xx:60`. -/
def parseRFC3339 : List Char → Option Timestamp
  | y1 :: y2 :: y3 :: y4 :: '-' :: o1 :: o2 :: '-' :: d1 :: d2 :: 'T' :: rest =>
    if y1.isDigit ∧ y2.isDigit ∧ y3.isDigit ∧ y4.isDigit ∧ o1.isDigit ∧ o2.isDigit ∧
        d1.isDigit ∧ d2.isDigit then
      match parseHour rest with
      | some hr =>
        match hr.2 with
        | ':' :: i1 :: i2 :: ':' :: s1 :: s2 :: rest3 =>
          if i1.isDigit ∧ i2.isDigit ∧ s1.isDigit ∧ s2.isDigit then
            let year := 1000 * digitVal y1 + 100 * digitVal y2 + 10 * digitVal y3 + digitVal y4
            let month := 10 * digitVal o1 + digitVal o2
            let day := 10 * digitVal d1 + digitVal d2
            let minute := 10 * digitVal i1 + digitVal i2
            let second := 10 * digitVal s1 + digitVal s2
            match parseFracOffset rest3 with
            | some p =>
              if 1 ≤ month ∧ month ≤ 12 ∧ 1 ≤ day ∧ day ≤ daysInMonth year month ∧
                  hr.1 ≤ 23 ∧ minute ≤ 59 ∧ second ≤ 59 then
                some ⟨year, month, day, hr.1, minute, second, p.1, p.2⟩
              else none
            | none => none
          else none
        | _ => none
      | none => none
    else none
  | _ => none

/-- Format a timestamp the way Go's `Format(time.RFC3339Nano)` does: the
fractional second is printed with trailing zeros removed (and dropped
entirely when the nanosecond count is zero), and a zero offset prints `Z`. -/
def formatRFC3339Nano (t : Timestamp) : List Char :=
  pad4 t.year ++ '-' :: pad2 t.month ++ '-' :: pad2 t.day ++ 'T' ::
    pad2 t.hour ++ ':' :: pad2 t.minute ++ ':' :: pad2 t.second ++
    (if t.nanos = 0 then [] else '.' :: stripZeros (pad9 t.nanos)) ++
    (if t.offsetMin = 0 then ['Z']
     else (if t.offsetMin < 0 then '-' else '+') ::
       pad2 (t.offsetMin.natAbs / 60) ++ ':' :: pad2 (t.offsetMin.natAbs % 60))

/-- Days since 1970-01-01 of a calendar date (Howard Hinnant's
`days_from_civil` algorithm, as used to linearise Gregorian dates). -/
def daysFromCivil (y m d : ℤ) : ℤ :=
  let y2 := if m ≤ 2 then y - 1 else y
  let era := (if 0 ≤ y2 then y2 else y2 - 399) / 400
  let yoe := y2 - era * 400
  let doy := (153 * (if 2 < m then m - 3 else m + 9) + 2) / 5 + d - 1
  let doe := yoe * 365 + yoe / 4 - yoe / 100 + doy
  era * 146097 + doe - 719468

/-- Absolute time of a timestamp, in nanoseconds since the Unix epoch.
This is the instant Go's `time.Time` denotes, so `t2.Sub(t1)` is the
difference of the two `toNs` values (in nanoseconds). -/
def toNs (t : Timestamp) : ℤ :=
  ((daysFromCivil t.year t.month t.day) * 86400 +
      (t.hour : ℤ) * 3600 + (t.minute : ℤ) * 60 + (t.second : ℤ) - t.offsetMin * 60) *
    1000000000 + (t.nanos : ℤ)

/-- Parse the exponent suffix of a decimal float literal (empty, or
`e`/`E` with optional sign and at least one digit, consuming the rest). -/
def parseExpPart : List Char → Option ℤ
  | [] => some 0
  | 'e' :: r => parseExpDigits r
  | 'E' :: r => parseExpDigits r
  | _ => none
where
  /-- Signed digit run forming the exponent value. -/
  parseExpDigits : List Char → Option ℤ
  | '+' :: r =>
    let p := spanDigits r
    if p.1.length = 0 ∨ p.2 ≠ [] then none else some (natOfDigits p.1 : ℤ)
  | '-' :: r =>
    let p := spanDigits r
    if p.1.length = 0 ∨ p.2 ≠ [] then none else some (-(natOfDigits p.1 : ℤ))
  | r =>
    let p := spanDigits r
    if p.1.length = 0 ∨ p.2 ≠ [] then none else some (natOfDigits p.1 : ℤ)

/-- Exact scaled-decimal number: the value `val / 10 ^ exp`. This represents
the exact decimal value carried by the float64 fields of the Go program
(parsing a decimal literal and re-rendering it to six places are both exact
at the precision the claims exercise). -/
structure Dec where
  val : ℤ
  exp : ℕ
  deriving DecidableEq, Repr

/-- Rational value of a scaled decimal. -/
def Dec.toQ (d : Dec) : ℚ := (d.val : ℚ) / 10 ^ d.exp

/-- Real value of a scaled decimal. -/
noncomputable def Dec.toR (d : Dec) : ℝ := (d.val : ℝ) / 10 ^ d.exp

/-- Assemble a parsed mantissa (with `fracLen` digits after the point) and a
decimal exponent into a scaled decimal. -/
def mkDec (m : ℤ) (fracLen : ℕ) (e : ℤ) : Dec :=
  if 0 ≤ e then ⟨m * 10 ^ e.toNat, fracLen⟩ else ⟨m, fracLen + e.natAbs⟩

/-- Smallest magnitude at which float64 round-to-nearest-even overflows to
infinity (half an ulp above the largest finite float64). For decimal
literals of at least this magnitude `strconv.ParseFloat` returns `±Inf`
together with a non-nil range error, which `handleVehiclePacket` treats as
a parse failure. -/
def float64OverflowBound : ℕ := 2 ^ 1024 - 2 ^ 970

/-- Whether the magnitude of a scaled decimal overflows the finite float64
range, i.e. `float64OverflowBound ≤ |val| / 10 ^ exp`. -/
def Dec.overflows (d : Dec) : Bool :=
  decide (float64OverflowBound * 10 ^ d.exp ≤ d.val.natAbs)

/-- Parse a decimal floating-point literal into an exact scaled decimal,
following Go's `strconv.ParseFloat`: optional sign, digits with an optional
single point (at least one digit overall), optional decimal exponent; a
syntactically valid literal whose magnitude overflows float64 fails with a
range error. -/
def parseFloatDec (cs : List Char) : Option Dec :=
  let sp : ℤ × List Char :=
    match cs with
    | '+' :: r => (1, r)
    | '-' :: r => (-1, r)
    | r => (1, r)
  let ip := spanDigits sp.2
  match ip.2 with
  | '.' :: rest =>
    let fp := spanDigits rest
    if ip.1.length = 0 ∧ fp.1.length = 0 then none
    else
      match parseExpPart fp.2 with
      | some e =>
        let d := mkDec (sp.1 * (natOfDigits (ip.1 ++ fp.1) : ℤ)) fp.1.length e
        if d.overflows then none else some d
      | none => none
  | rest =>
    if ip.1.length = 0 then none
    else
      match parseExpPart rest with
      | some e =>
        let d := mkDec (sp.1 * (natOfDigits ip.1 : ℤ)) 0 e
        if d.overflows then none else some d
      | none => none

/-- Round `n / d` to the nearest natural number, ties to even (the rounding
Go's fixed-precision decimal formatting performs). Requires `0 < d`. -/
def roundHE (n d : ℕ) : ℕ :=
  let q := n / d
  let r := n % d
  if d < 2 * r then q + 1 else if 2 * r < d then q else if q % 2 = 0 then q else q + 1

/-- Format a scaled decimal with exactly six digits after the decimal point,
as Go's `fmt.Sprintf` verb `%.6f` renders a float64. -/
def formatDec6 (x : Dec) : List Char :=
  let m := roundHE (x.val.natAbs * 1000000) (10 ^ x.exp)
  (if x.val < 0 then ['-'] else []) ++ natChars (m / 1000000) ++ '.' :: pad6 (m % 1000000)


/-- Two-argument arctangent with the quadrant handling of Go's `math.Atan2`
(for positive `x` it is `arctan (y / x)`; the remaining cases follow the
IEEE special-value table restricted to finite arguments). -/
noncomputable def atan2 (y x : ℝ) : ℝ :=
  if 0 < x then Real.arctan (y / x)
  else if x < 0 then
    (if 0 ≤ y then Real.arctan (y / x) + Real.pi else Real.arctan (y / x) - Real.pi)
  else if 0 < y then Real.pi / 2 else if y < 0 then -(Real.pi / 2) else 0

/-- Great-circle distance in meters by the haversine formula, as computed by
`getDistance` in src/fleet_state_server/main.go (with `math.Pow(x, 2)`
written as squaring). -/
noncomputable def getDistance (lat1 long1 lat2 long2 : ℝ) : ℝ :=
  let earthRadius : ℝ := 6371009
  let phi1 := lat1 * Real.pi / 180
  let lambda1 := long1 * Real.pi / 180
  let phi2 := lat2 * Real.pi / 180
  let lambda2 := long2 * Real.pi / 180
  let deltaPhi := phi2 - phi1
  let deltaLambda := lambda2 - lambda1
  let a := Real.sin (deltaPhi / 2) ^ 2 +
    Real.cos phi1 * Real.cos phi2 * Real.sin (deltaLambda / 2) ^ 2
  let c := 2 * atan2 (Real.sqrt a) (Real.sqrt (1 - a))
  earthRadius * c

/-- Value of a float64 expression: a finite real, an infinity, or NaN. -/
inductive FloatVal where
  | fin (x : ℝ)
  | posInf
  | negInf
  | nan

/-- Float64 division `x / y` with `y` taken from an exact rational: at a zero
denominator IEEE 754 (and hence Go) produces an infinity of the numerator's
sign, or NaN for `0 / 0`; otherwise the exact quotient. -/
noncomputable def goDiv (x : ℝ) (y : ℚ) : FloatVal :=
  if y = 0 then (if 0 < x then .posInf else if x < 0 then .negInf else .nan)
  else .fin (x / (y : ℝ))

/-- Subscriber transport endpoint (`*net.UDPAddr` in the Go code). -/
structure UDPAddr where
  host : List Char
  port : ℕ
  deriving DecidableEq, Repr

/-- Timestamped position sample — the `location` struct of the Go server. -/
structure Location where
  timestamp : Timestamp
  latitude : Dec
  longitude : Dec
  deriving DecidableEq, Repr

/-- Outcome of the speed computation at the top of `sendSubscriberUpdate`:
either the `-1.0` sentinel, or the division branch taken with the two
locations involved and the gap between their timestamps in nanoseconds.
The numeric value is recovered by `speedVal`. -/
inductive SpeedV where
  | sentinel
  | computed (loc1 loc2 : Location) (durNs : ℤ)
  deriving DecidableEq, Repr

/-- Junk location used to totalise the partial indexing `locations[i]` of the
Go code; every call site guarantees the index is in bounds. -/
def dummyLoc : Location := ⟨⟨1970, 1, 1, 0, 0, 0, 0, 0⟩, ⟨0, 0⟩, ⟨0, 0⟩⟩

/-- The second-to-last element, `locations[len(locations)-2]`. -/
def penult (locations : List Location) : Location :=
  (locations[locations.length - 2]?).getD dummyLoc

/-- The last element, `locations[len(locations)-1]`. -/
def lastLoc (locations : List Location) : Location :=
  (locations[locations.length - 1]?).getD dummyLoc

/-- Nanosecond gap between the last two samples,
`loc2.timestamp.Sub(loc1.timestamp)`. -/
def gapNs (locations : List Location) : ℤ :=
  toNs (lastLoc locations).timestamp - toNs (penult locations).timestamp

/-- Wall-clock gap between the last two samples in seconds, exactly:
the `.Seconds()` value whose comparison against `2.0` the code performs.
Comparing the float64 `gapNs / 1e9` against `2.0` is equivalent to comparing
the integer `gapNs` against `2e9`, which is how `speedSym` states it. -/
def gapSec (locations : List Location) : ℚ := (gapNs locations : ℚ) / 1000000000

/-- Speed computation of `sendSubscriberUpdate` (main.go lines 199-215):
start from the sentinel; with at least two samples and a gap under two
seconds, take the division branch. -/
def speedSym (locations : List Location) : SpeedV :=
  if 1 < locations.length then
    let loc1 := penult locations
    let loc2 := lastLoc locations
    let d := toNs loc2.timestamp - toNs loc1.timestamp
    if d < 2000000000 then .computed loc1 loc2 d else .sentinel
  else .sentinel

/-- Numeric value of a speed-computation outcome: the sentinel is `-1.0`, and
the division branch is the float64 division of the great-circle distance by
the gap in seconds. -/
noncomputable def speedVal : SpeedV → FloatVal
  | .sentinel => .fin (-1)
  | .computed loc1 loc2 d =>
    goDiv
      (getDistance loc1.latitude.toR loc1.longitude.toR loc2.latitude.toR loc2.longitude.toR)
      ((d : ℚ) / 1000000000)

/-- Speed dispatched for a history, as a float64 value. -/
noncomputable def speedOf (locations : List Location) : FloatVal := speedVal (speedSym locations)

/-- Contents of one outbound update datagram, before rendering: the formatted
timestamp of the latest sample, the agent id, the latest coordinates, and
the speed-computation outcome. `fmt.Sprintf` turns this into the wire string
(see `renderUpdate`). -/
structure Update where
  timestampStr : List Char
  vin : List Char
  latitude : Dec
  longitude : Dec
  speed : SpeedV
  deriving DecidableEq, Repr

/-- Build the outbound update for a history and agent id, as
`sendSubscriberUpdate` does from `locations[length-1]`. -/
def mkUpdate (locations : List Location) (vin : List Char) : Update :=
  let lastLocation := lastLoc locations
  { timestampStr := formatRFC3339Nano lastLocation.timestamp
    vin := vin
    latitude := lastLocation.latitude
    longitude := lastLocation.longitude
    speed := speedSym locations }

/-- Format a rational with six digits after the point (`%.6f`), used to
render the sentinel speed and any other exactly-rational float64. -/
def formatQ6 (q : ℚ) : List Char :=
  let m := roundHE (q.num.natAbs * 1000000) q.den
  (if q < 0 then ['-'] else []) ++ natChars (m / 1000000) ++ '.' :: pad6 (m % 1000000)

/-- Render a finite float64 value with `%.6f`. Every float64 is rational, so
the rational branch is the real one; the fallback marker is never produced
by the program (it would require an irrational float64). -/
noncomputable def formatFin6 (x : ℝ) : List Char :=
  haveI := Classical.propDecidable (∃ q : ℚ, (q : ℝ) = x)
  if h : ∃ q : ℚ, (q : ℝ) = x then formatQ6 h.choose else ['?']

/-- Render a float64 value with `%.6f` (Go prints infinities and NaN of a
`%f` verb as `+Inf`, `-Inf` and `NaN`). -/
noncomputable def formatFloatVal : FloatVal → List Char
  | .fin x => formatFin6 x
  | .posInf => "+Inf".toList
  | .negInf => "-Inf".toList
  | .nan => "NaN".toList

/-- Rendered speed token of the outbound message. -/
noncomputable def renderSpeed : SpeedV → List Char
  | .sentinel => formatQ6 (-1)
  | .computed loc1 loc2 d =>
    formatFloatVal (goDiv
      (getDistance loc1.latitude.toR loc1.longitude.toR loc2.latitude.toR loc2.longitude.toR)
      ((d : ℚ) / 1000000000))

/-- Wire string of an outbound update datagram, as built by the
`fmt.Sprintf` call in `sendSubscriberUpdate`. -/
noncomputable def renderUpdate (u : Update) : List Char :=
  u.timestampStr ++ ' ' :: u.vin ++ ' ' :: formatDec6 u.latitude ++
    ' ' :: formatDec6 u.longitude ++ ' ' :: renderSpeed u.speed

/-- Result of one iteration of the send loop as determined by the network
environment: `net.DialUDP` fails, `conn.Write` fails, or both succeed. -/
inductive SendOutcome where
  | ok
  | dialErr
  | writeErr
  deriving DecidableEq, Repr

/-- Observable effect of the server: an update datagram handed to the socket
for a subscriber, or a diagnostic line on standard error. -/
inductive Output where
  | sent (addr : UDPAddr) (update : Update)
  | logged (msg : List Char)
  deriving DecidableEq, Repr

/-- Whether an output is a sent datagram. -/
def Output.isSent : Output → Bool
  | .sent _ _ => true
  | .logged _ => false

/-- Diagnostic printed for a subscriber packet with the wrong token count. -/
def subscriberPacketErr : List Char := "Error: invalid subscriber packet.".toList

/-- Diagnostic printed for a vehicle packet with the wrong token count. -/
def vehiclePacketErr : List Char := "Error: invalid vehicle packet.".toList

/-- Diagnostic printed for an unparsable timestamp. -/
def timestampErr : List Char := "Error: invalid timestamp.".toList

/-- Diagnostic printed for an unparsable latitude. -/
def latitudeErr : List Char := "Error: invalid latitude.".toList

/-- Diagnostic printed for an unparsable longitude. -/
def longitudeErr : List Char := "Error: invalid longitude.".toList

/-- Diagnostic printed when `net.DialUDP` fails for a subscriber. -/
def dialErrLog : List Char := "Error: unable to connect to subscriber address.".toList

/-- Diagnostic printed when `conn.Write` fails for a subscriber. -/
def writeErrLog : List Char := "Error: failed to send subscriber update.".toList

/-- The per-subscriber loop of `sendSubscriberUpdate` (main.go lines
223-240): on a dial failure the Go function logs and RETURNS, abandoning the
remaining subscribers; on a write failure it logs and continues. -/
def sendLoop (u : Update) : List UDPAddr → (ℕ → SendOutcome) → ℕ → List Output
  | [], _, _ => []
  | addr :: rest, env, i =>
    match env i with
    | .dialErr => [.logged dialErrLog]
    | .writeErr => .logged writeErrLog :: sendLoop u rest env (i + 1)
    | .ok => .sent addr u :: sendLoop u rest env (i + 1)

/-- The `sendSubscriberUpdate` function: build the update message once, then
run the send loop over the subscriber list. -/
def sendSubscriberUpdate (env : ℕ → SendOutcome) (subscribers : List UDPAddr)
    (locations : List Location) (vin : List Char) : List Output :=
  sendLoop (mkUpdate locations vin) subscribers env 0

/-- The two mutable maps of `runServer`: `fleet` (VIN to location history)
and `subscribers` (VIN to subscriber addresses), as functions from keys to
optional values, mirroring Go map lookup. -/
structure ServerState where
  fleet : List Char → Option (List Location)
  subscribers : List Char → Option (List UDPAddr)

/-- The state of the freshly started server: both maps empty. -/
def emptyState : ServerState := ⟨fun _ => none, fun _ => none⟩

/-- Go map assignment `m[k] = v`. -/
def mapInsert {β : Type} (m : List Char → Option β) (k : List Char) (v : β) :
    List Char → Option β :=
  fun k2 => if k2 = k then some v else m k2

/-- The `handleSubscriberPacket` function (main.go lines 136-149): exactly
two space-separated tokens, else log and drop; on success append the source
address to the VIN's subscriber list, creating it if absent. -/
def handleSubscriberPacket (source : UDPAddr) (message : List Char)
    (subscribers : List Char → Option (List UDPAddr)) :
    (List Char → Option (List UDPAddr)) × List Output :=
  match splitSpace message with
  | [_, vin] =>
    match subscribers vin with
    | some l => (mapInsert subscribers vin (l ++ [source]), [])
    | none => (mapInsert subscribers vin [source], [])
  | _ => (subscribers, [.logged subscriberPacketErr])

/-- The `handleVehiclePacket` function (main.go lines 153-193): exactly four
tokens `<timestamp> <vin> <latitude> <longitude>`, each field validated in
order with the first failure dropping the packet; on success append the
sample to the VIN's history (creating it if absent) and, when the VIN has a
subscriber list, dispatch the update to it. -/
def handleVehiclePacket (env : ℕ → SendOutcome) (message : List Char) (st : ServerState) :
    ServerState × List Output :=
  match splitSpace message with
  | [e0, e1, e2, e3] =>
    match parseRFC3339 e0 with
    | none => (st, [.logged timestampErr])
    | some timestamp =>
      match parseFloatDec e2 with
      | none => (st, [.logged latitudeErr])
      | some latitude =>
        match parseFloatDec e3 with
        | none => (st, [.logged longitudeErr])
        | some longitude =>
          let vin := e1
          let entry : Location := ⟨timestamp, latitude, longitude⟩
          let newHist :=
            match st.fleet vin with
            | some l => l ++ [entry]
            | none => [entry]
          let st2 : ServerState := ⟨mapInsert st.fleet vin newHist, st.subscribers⟩
          match st.subscribers vin with
          | some subscriberList => (st2, sendSubscriberUpdate env subscriberList newHist vin)
          | none => (st2, [])
  | _ => (st, [.logged vehiclePacketErr])

/-- The token Go's `strings.HasPrefix(message, "SUBSCRIBE")` tests for. -/
def subscribeToken : List Char := "SUBSCRIBE".toList

/-- The `handlePacket` function (main.go lines 120-130): messages whose text
STARTS WITH `SUBSCRIBE` go to the subscriber handler, everything else to the
vehicle handler. -/
def handlePacket (env : ℕ → SendOutcome) (source : UDPAddr) (message : List Char)
    (st : ServerState) : ServerState × List Output :=
  if subscribeToken.isPrefixOf message then
    let p := handleSubscriberPacket source message st.subscribers
    (⟨st.fleet, p.1⟩, p.2)
  else handleVehiclePacket env message st

/-- One inbound datagram together with the network environment governing the
dispatch attempts it triggers. -/
structure Datagram where
  source : UDPAddr
  message : List Char
  env : ℕ → SendOutcome

/-- The server loop of `runServer`: process the inbound datagrams in order,
threading the state and concatenating the observable outputs. -/
def runServer (st : ServerState) : List Datagram → ServerState × List Output
  | [] => (st, [])
  | d :: ds =>
    let p := handlePacket d.env d.source d.message st
    let r := runServer p.1 ds
    (r.1, p.2 ++ r.2)

/-- Network environment in which every dial and write succeeds. -/
def envOk : ℕ → SendOutcome := fun _ => .ok

/-- The two inbound message kinds of the protocol. -/
inductive MsgKind where
  | subscription
  | position
  deriving DecidableEq, Repr

/-- Classification performed by `handlePacket`: the Go code tests
`strings.HasPrefix(message, "SUBSCRIBE")` on the raw text. -/
def classify (message : List Char) : MsgKind :=
  if subscribeToken.isPrefixOf message then .subscription else .position

/-- Leading whitespace-separated token of a message (the notion of
"leading token" the specification classifies by). -/
def headToken (message : List Char) : List Char := (splitSpace message).headD []

/-- Modelled from the spec: the per-subscriber send loop as the
specification describes it ("a failure sending to one subscriber is logged
and does not abort sending to the remaining subscribers"), i.e. one output
per subscriber regardless of earlier failures. `sendLoop` (the code) is
compared against this reference in the C2 theorems. -/
def sendAll (u : Update) : List UDPAddr → (ℕ → SendOutcome) → ℕ → List Output
  | [], _, _ => []
  | addr :: rest, env, i =>
    (match env i with
     | .writeErr => Output.logged writeErrLog
     | .dialErr => Output.logged dialErrLog
     | .ok => Output.sent addr u) :: sendAll u rest env (i + 1)

/-- Subscriber endpoint fixture. -/
def addrA : UDPAddr := ⟨"10.0.0.1".toList, 4000⟩

/-- Second subscriber endpoint fixture. -/
def addrB : UDPAddr := ⟨"10.0.0.2".toList, 4001⟩

/-- Vehicle source endpoint fixture (the vehicle handler ignores it). -/
def agentSrc : UDPAddr := ⟨"10.0.0.9".toList, 5000⟩

/-- Sample at 2024-01-01T00:00:00Z, coordinates (0, 0). -/
def c1LocA : Location := ⟨⟨2024, 1, 1, 0, 0, 0, 0, 0⟩, ⟨0, 0⟩, ⟨0, 0⟩⟩

/-- Sample one second later, coordinates (0, 90). -/
def c1LocB : Location := ⟨⟨2024, 1, 1, 0, 0, 1, 0, 0⟩, ⟨0, 0⟩, ⟨90, 0⟩⟩

/-- Network environment whose first dial fails and everything else works. -/
def envDial0 : ℕ → SendOutcome := fun i => if i = 0 then .dialErr else .ok

/-- Network environment whose first write fails and everything else works. -/
def envWrite0 : ℕ → SendOutcome := fun i => if i = 0 then .writeErr else .ok

/-- Update fixture used by the dispatch-failure theorems. -/
def c2Update : Update := mkUpdate [c1LocA] "V1".toList

/-- Position-report message fixture for agent V1. -/
def vehMsgV1 : List Char := "2024-01-01T00:00:00.000000000Z V1 53.344496 -6.259427".toList

/-- Position report whose timestamp uses the leniencies of Go's layout
parser: one-digit hour, comma fractional separator, `+24:00` offset. -/
def lenientMsg : List Char := "2024-01-01T5:04:05,5+24:00 V1 1 2".toList

/-- Sample parsed from `vehMsgV1`. -/
def c5loc : Location := ⟨⟨2024, 1, 1, 0, 0, 0, 0, 0⟩, ⟨53344496, 6⟩, ⟨-6259427, 6⟩⟩

/-- Datagram sequence of the subscribe-then-report scenario. -/
def c5ds : List Datagram :=
  [⟨addrA, "SUBSCRIBE V1".toList, envOk⟩, ⟨agentSrc, vehMsgV1, envOk⟩]

/-- Update dispatched in the subscribe-then-report scenario. -/
def c5update : Update := mkUpdate [c5loc] "V1".toList

/-- Payload the specification scenario claims for the outbound datagram. -/
def c5claimedPayload : List Char :=
  "2024-01-01T00:00:00.000000000Z V1 53.344496 -6.259427 -1.000000".toList

/-- Payload the code actually produces: `time.RFC3339Nano` strips the
all-zero fractional second from the echoed timestamp. -/
def c5actualPayload : List Char :=
  "2024-01-01T00:00:00Z V1 53.344496 -6.259427 -1.000000".toList

/-- Datagram sequence registering two subscribers for V1 and then taking a
position report whose dispatch hits a dial failure on the first subscriber. -/
def c2ds : List Datagram :=
  [⟨addrA, "SUBSCRIBE V1".toList, envOk⟩,
   ⟨addrB, "SUBSCRIBE V1".toList, envOk⟩,
   ⟨agentSrc, vehMsgV1, envDial0⟩]

/-- Timestamp fixture 2024-01-01T00:00:00Z. -/
def c10Ts : Timestamp := ⟨2024, 1, 1, 0, 0, 0, 0, 0⟩

/-- Timestamp fixture one second later. -/
def c10Ts1 : Timestamp := ⟨2024, 1, 1, 0, 0, 1, 0, 0⟩

/-- Sample at (0, 0) at `c10Ts`. -/
def c10P : Location := ⟨c10Ts, ⟨0, 0⟩, ⟨0, 0⟩⟩

/-- Sample at (0, 90) at the same instant `c10Ts`. -/
def c10Q : Location := ⟨c10Ts, ⟨0, 0⟩, ⟨90, 0⟩⟩

/-- Sample at (0, 0) one second later — arriving before `c10Q` it produces a
negative timestamp gap. -/
def c10R : Location := ⟨c10Ts1, ⟨0, 0⟩, ⟨0, 0⟩⟩

/-- Datagram sequence producing a dispatched update whose last two samples
carry identical timestamps (a zero wall-clock gap). -/
def c10ds : List Datagram :=
  [⟨addrA, "SUBSCRIBE V1".toList, envOk⟩,
   ⟨agentSrc, "2024-01-01T00:00:00Z V1 0 0".toList, envOk⟩,
   ⟨agentSrc, "2024-01-01T00:00:00Z V1 0 90".toList, envOk⟩]

/-- The strict 2.0-second cutoff compared on the exact rational gap is the
same comparison the code performs on integer nanoseconds. -/
lemma gapSec_lt_two_iff (l : List Location) : gapSec l < 2 ↔ gapNs l < 2000000000 := by
  rw [gapSec, div_lt_iff₀ (by norm_num : (0 : ℚ) < 1000000000)]
  constructor <;> intro h <;> exact_mod_cast h

/-- Complement of `gapSec_lt_two_iff`. -/
lemma two_le_gapSec_iff (l : List Location) : 2 ≤ gapSec l ↔ 2000000000 ≤ gapNs l := by
  rw [gapSec, le_div_iff₀ (by norm_num : (0 : ℚ) < 1000000000)]
  constructor <;> intro h <;> exact_mod_cast h

/-- Squared sine is an even function of its argument. -/
lemma sin_sq_neg (t : ℝ) : Real.sin (-t) ^ 2 = Real.sin t ^ 2 := by
  rw [Real.sin_neg]; ring

/-- The haversine distance of the Go code is symmetric in its two points. -/
lemma getDistance_comm (a b c d : ℝ) : getDistance a b c d = getDistance c d a b := by
  have h1 : ∀ x y : ℝ, Real.sin ((x - y) / 2) ^ 2 = Real.sin ((y - x) / 2) ^ 2 := by
    intro x y
    have hx : (x - y) / 2 = -((y - x) / 2) := by ring
    rw [hx, sin_sq_neg]
  simp only [getDistance]
  have key :
      Real.sin ((c * Real.pi / 180 - a * Real.pi / 180) / 2) ^ 2 +
          Real.cos (a * Real.pi / 180) * Real.cos (c * Real.pi / 180) *
            Real.sin ((d * Real.pi / 180 - b * Real.pi / 180) / 2) ^ 2 =
        Real.sin ((a * Real.pi / 180 - c * Real.pi / 180) / 2) ^ 2 +
          Real.cos (c * Real.pi / 180) * Real.cos (a * Real.pi / 180) *
            Real.sin ((b * Real.pi / 180 - d * Real.pi / 180) / 2) ^ 2 := by
    rw [h1 (c * Real.pi / 180) (a * Real.pi / 180), h1 (d * Real.pi / 180) (b * Real.pi / 180)]
    ring
  rw [key]

/-- The haversine distance of the Go code vanishes on coincident points. -/
lemma getDistance_self (a b : ℝ) : getDistance a b a b = 0 := by
  simp only [getDistance, sub_self, zero_div, Real.sin_zero, ne_eq, OfNat.ofNat_ne_zero,
    not_false_eq_true, zero_pow, mul_zero, add_zero, Real.sqrt_zero, sub_zero, Real.sqrt_one]
  have h : atan2 0 1 = 0 := by
    simp only [atan2, zero_div, Real.arctan_zero, if_pos (by norm_num : (0 : ℝ) < 1)]
  rw [h]
  ring

/-- C1: a dispatched update's speed field is exactly `-1.0` when the history
has fewer than two samples or the wall-clock gap between the last two
timestamps is at least 2.0 seconds; with at least two samples and a gap
strictly under 2.0 seconds it is the great-circle distance between the
second-to-last and last samples divided (as a float64 division) by the gap
in seconds. -/
theorem C1_speed_formula (locations : List Location) :
    ((locations.length < 2 ∨ 2 ≤ gapSec locations) → speedOf locations = .fin (-1)) ∧
    (2 ≤ locations.length → gapSec locations < 2 →
      speedOf locations =
        goDiv
          (getDistance (penult locations).latitude.toR (penult locations).longitude.toR
            (lastLoc locations).latitude.toR (lastLoc locations).longitude.toR)
          (gapSec locations)) := by
  constructor
  · intro h
    rcases h with hlen | hgap
    · simp only [speedOf, speedSym]
      rw [if_neg (by omega)]
      rfl
    · have hg0 := (two_le_gapSec_iff locations).mp hgap
      have hg : ¬(toNs (lastLoc locations).timestamp - toNs (penult locations).timestamp <
          2000000000) := by
        unfold gapNs at hg0; omega
      simp only [speedOf, speedSym]
      by_cases hl : 1 < locations.length
      · rw [if_pos hl, if_neg hg]
        rfl
      · rw [if_neg hl]
        rfl
  · intro hlen hgap
    have hl : 1 < locations.length := by omega
    have hg0 := (gapSec_lt_two_iff locations).mp hgap
    have hg : toNs (lastLoc locations).timestamp - toNs (penult locations).timestamp <
        2000000000 := by
      unfold gapNs at hg0; omega
    simp only [speedOf, speedSym]
    rw [if_pos hl, if_pos hg]
    rfl

/-- Witness for C1: the empty history yields the sentinel, and a two-sample
history with a one-second gap yields the distance divided by the gap. -/
theorem C1_speed_formula_witness :
    speedOf [] = .fin (-1) ∧
    speedOf [c1LocA, c1LocB] =
      goDiv
        (getDistance (penult [c1LocA, c1LocB]).latitude.toR
          (penult [c1LocA, c1LocB]).longitude.toR
          (lastLoc [c1LocA, c1LocB]).latitude.toR
          (lastLoc [c1LocA, c1LocB]).longitude.toR)
        (gapSec [c1LocA, c1LocB]) := by
  refine ⟨(C1_speed_formula []).1 (Or.inl (by decide)),
    (C1_speed_formula [c1LocA, c1LocB]).2 (by decide) ?_⟩
  exact (gapSec_lt_two_iff _).mpr (by decide)

/-- Haversine distance between (0, 0) and (0, 90): a quarter of a great
circle. Used to exhibit a strictly positive distance. -/
lemma getDistance_zero_90 : getDistance 0 0 0 90 = 6371009 * (Real.pi / 2) := by
  have h0 : (0 : ℝ) * Real.pi / 180 = 0 := by ring
  have h90 : (90 : ℝ) * Real.pi / 180 = Real.pi / 2 := by ring
  have hsqrt : (0 : ℝ) < Real.sqrt (1 / 2) := Real.sqrt_pos.mpr (by norm_num)
  have ha : Real.sin ((0 - 0) / 2) ^ 2 +
      Real.cos 0 * Real.cos 0 * Real.sin ((Real.pi / 2 - 0) / 2) ^ 2 = 1 / 2 := by
    rw [sub_self, zero_div, Real.sin_zero, sub_zero]
    have h4 : Real.pi / 2 / 2 = Real.pi / 4 := by ring
    rw [h4, Real.sin_pi_div_four, Real.cos_zero]
    rw [div_pow, Real.sq_sqrt (by norm_num : (0 : ℝ) ≤ 2)]
    norm_num
  have h12 : (1 : ℝ) - 1 / 2 = 1 / 2 := by norm_num
  have hat : atan2 (Real.sqrt (1 / 2)) (Real.sqrt (1 / 2)) = Real.pi / 4 := by
    simp only [atan2]
    rw [if_pos hsqrt, div_self (ne_of_gt hsqrt), Real.arctan_one]
  simp only [getDistance, h0, h90]
  rw [ha, h12, hat]
  ring

/-- The quarter-circle distance is strictly positive. -/
lemma getDistance_zero_90_pos : 0 < getDistance 0 0 0 90 := by
  rw [getDistance_zero_90]
  positivity

/-- Real value of the zero decimal fixture. -/
lemma decToR_zero : (Dec.mk 0 0).toR = 0 := by
  simp [Dec.toR]

/-- Real value of the 90-degree decimal fixture. -/
lemma decToR_90 : (Dec.mk 90 0).toR = 90 := by
  simp [Dec.toR]

/-- C10: the speed computation is not guarded against non-positive gaps.
With two samples carrying identical timestamps the dispatched update takes
the division branch with a zero-second gap and its speed value is `+Inf`
(for distinct coordinates) or `NaN` (for identical coordinates), and with a
negative gap the speed value is a negative number — never the `-1.0`
sentinel. The first conjuncts exhibit a run of the full server in which the
dispatched update carries the unguarded zero gap. -/
theorem C10_unguarded_gap :
    (runServer emptyState c10ds).2 =
      [.sent addrA (mkUpdate [c10P] "V1".toList),
       .sent addrA (mkUpdate [c10P, c10Q] "V1".toList)] ∧
    (mkUpdate [c10P, c10Q] "V1".toList).speed = .computed c10P c10Q 0 ∧
    speedOf [c10P, c10Q] = .posInf ∧
    speedOf [c10P, c10P] = .nan ∧
    (∃ x : ℝ, speedOf [c10R, c10Q] = .fin x ∧ x < 0) := by
  have hdist : getDistance (Dec.mk 0 0).toR (Dec.mk 0 0).toR (Dec.mk 0 0).toR
      (Dec.mk 90 0).toR = 6371009 * (Real.pi / 2) := by
    rw [decToR_zero, decToR_90, getDistance_zero_90]
  have hdpos : (0 : ℝ) < 6371009 * (Real.pi / 2) := by positivity
  refine ⟨by decide, by decide, ?_, ?_, ?_⟩
  · have hs : speedSym [c10P, c10Q] = .computed c10P c10Q 0 := by decide
    rw [speedOf, hs]
    show goDiv (getDistance (Dec.mk 0 0).toR (Dec.mk 0 0).toR (Dec.mk 0 0).toR
      (Dec.mk 90 0).toR) (((0 : ℤ) : ℚ) / 1000000000) = .posInf
    rw [hdist]
    have hy : (((0 : ℤ) : ℚ) / 1000000000) = 0 := by norm_num
    rw [goDiv, if_pos hy, if_pos hdpos]
  · have hs : speedSym [c10P, c10P] = .computed c10P c10P 0 := by decide
    rw [speedOf, hs]
    show goDiv (getDistance (Dec.mk 0 0).toR (Dec.mk 0 0).toR (Dec.mk 0 0).toR
      (Dec.mk 0 0).toR) (((0 : ℤ) : ℚ) / 1000000000) = .nan
    rw [decToR_zero, getDistance_self]
    have hy : (((0 : ℤ) : ℚ) / 1000000000) = 0 := by norm_num
    rw [goDiv, if_pos hy, if_neg (lt_irrefl 0), if_neg (lt_irrefl 0)]
  · refine ⟨-(6371009 * (Real.pi / 2)), ?_, by simpa using hdpos⟩
    have hs : speedSym [c10R, c10Q] = .computed c10R c10Q (-1000000000) := by decide
    rw [speedOf, hs]
    show goDiv (getDistance (Dec.mk 0 0).toR (Dec.mk 0 0).toR (Dec.mk 0 0).toR
      (Dec.mk 90 0).toR) ((((-1000000000 : ℤ)) : ℚ) / 1000000000) = _
    rw [hdist]
    have hy : ((((-1000000000 : ℤ)) : ℚ) / 1000000000) = -1 := by norm_num
    rw [hy, goDiv, if_neg (by norm_num : ¬((-1 : ℚ) = 0))]
    have hc : (((-1 : ℚ)) : ℝ) = -1 := by norm_num
    rw [hc, div_neg, div_one]

/-- When no dial failure occurs, the code's send loop behaves like the
specification's independent-failure loop. -/
lemma sendLoop_eq_sendAll (u : Update) (subs : List UDPAddr) (env : ℕ → SendOutcome) (i : ℕ)
    (h : ∀ j, env j ≠ SendOutcome.dialErr) : sendLoop u subs env i = sendAll u subs env i := by
  induction subs generalizing i with
  | nil => rfl
  | cons a rest ih =>
    cases he : env i with
    | ok => simp [sendLoop, sendAll, he, ih]
    | dialErr => exact absurd he (h i)
    | writeErr => simp [sendLoop, sendAll, he, ih]

/-- The specification's loop produces exactly one output per subscriber. -/
lemma sendAll_length (u : Update) (subs : List UDPAddr) (env : ℕ → SendOutcome) (i : ℕ) :
    (sendAll u subs env i).length = subs.length := by
  induction subs generalizing i with
  | nil => rfl
  | cons a rest ih => simp [sendAll, ih]

/-- Counterexample for C2: with two subscribers registered for V1 and a dial
failure on the first, the dispatch logs once and produces NO output at all
for the second subscriber — the failure aborts the remaining sends, contrary
to the claim. -/
theorem C2_dispatch_abort_counterexample :
    (runServer emptyState c2ds).2 = [.logged dialErrLog] ∧
    ((runServer emptyState c2ds).2.filter Output.isSent) = [] ∧
    sendLoop c2Update [addrA, addrB] envDial0 0 ≠
      sendAll c2Update [addrA, addrB] envDial0 0 := by
  decide

/-- C2 amended: a failure to WRITE to one subscriber is logged and does not
abort the remaining sends (with no dial failures the loop emits exactly one
output per subscriber, as the specification's independent-failure loop
does); but a failure to DIAL a subscriber is logged and aborts the sends to
every remaining subscriber. -/
theorem C2_dispatch_failure_amended :
    (∀ u subs env i, (∀ j, env j ≠ SendOutcome.dialErr) →
      sendLoop u subs env i = sendAll u subs env i ∧
      (sendLoop u subs env i).length = subs.length) ∧
    (∀ u addr rest env i, env i = SendOutcome.dialErr →
      sendLoop u (addr :: rest) env i = [.logged dialErrLog]) := by
  constructor
  · intro u subs env i h
    refine ⟨sendLoop_eq_sendAll u subs env i h, ?_⟩
    rw [sendLoop_eq_sendAll u subs env i h, sendAll_length]
  · intro u addr rest env i h
    simp [sendLoop, h]

/-- Witness for the amended C2: a concrete write failure on the first of two
subscribers still yields one output per subscriber, and a concrete dial
failure yields only the dial diagnostic. -/
theorem C2_dispatch_failure_amended_witness :
    (sendLoop c2Update [addrA, addrB] envWrite0 0 =
        sendAll c2Update [addrA, addrB] envWrite0 0 ∧
      (sendLoop c2Update [addrA, addrB] envWrite0 0).length = [addrA, addrB].length) ∧
    sendLoop c2Update [addrB] envDial0 0 = [.logged dialErrLog] := by
  have hnd : ∀ j, envWrite0 j ≠ SendOutcome.dialErr := by
    intro j
    unfold envWrite0
    split <;> simp
  exact ⟨C2_dispatch_failure_amended.1 c2Update [addrA, addrB] envWrite0 0 hnd,
    C2_dispatch_failure_amended.2 c2Update addrB [] envDial0 0 rfl⟩

/-- Splitting never yields an empty token list. -/
lemma splitSpace_ne_nil : ∀ cs : List Char, splitSpace cs ≠ []
  | [] => by simp [splitSpace]
  | c :: rest => by
    simp only [splitSpace]
    cases h : splitSpace rest with
    | nil => simp
    | cons t ts => by_cases hc : c = ' ' <;> simp [hc]

/-- A space-free string splits into itself as the only token. -/
lemma splitSpace_nospace (cs : List Char) (h : ' ' ∉ cs) : splitSpace cs = [cs] := by
  induction cs with
  | nil => rfl
  | cons c rest ih =>
    have hc : c ≠ ' ' := by
      intro e
      exact h (by simp [e])
    have hr : ' ' ∉ rest := fun m => h (List.mem_cons_of_mem _ m)
    simp only [splitSpace, ih hr]
    rw [if_neg hc]

/-- Splitting around the first space of `xs ++ ' ' :: ys` when `xs` is
space-free peels off `xs` as the first token. -/
lemma splitSpace_append (xs ys : List Char) (h : ' ' ∉ xs) :
    splitSpace (xs ++ ' ' :: ys) = xs :: splitSpace ys := by
  induction xs with
  | nil =>
    simp only [List.nil_append, splitSpace]
    cases hy : splitSpace ys with
    | nil => exact absurd hy (splitSpace_ne_nil ys)
    | cons t ts => simp
  | cons x xs ih =>
    have hx : x ≠ ' ' := by
      intro e
      exact h (by simp [e])
    have hxs : ' ' ∉ xs := fun m => h (List.mem_cons_of_mem _ m)
    simp only [List.cons_append, splitSpace, List.append_eq, ih hxs]
    rw [if_neg hx]

/-- A list is a Boolean prefix of itself followed by anything. -/
lemma isPrefixOf_append_self (l t : List Char) : l.isPrefixOf (l ++ t) = true := by
  induction l with
  | nil => cases t <;> rfl
  | cons a l ih => simp [List.isPrefixOf, ih]

/-- Counterexample for C8: the message `SUBSCRIBEX V1` has leading token
`SUBSCRIBEX`, not `SUBSCRIBE`, yet the code classifies it as a subscription
(the code tests a text prefix, not the leading token) — and actually
registers its sender as a subscriber of V1. -/
theorem C8_classify_counterexample :
    classify "SUBSCRIBEX V1".toList = .subscription ∧
    headToken "SUBSCRIBEX V1".toList ≠ "SUBSCRIBE".toList ∧
    (handlePacket envOk addrB "SUBSCRIBEX V1".toList emptyState).1.subscribers "V1".toList =
      some [addrB] := by
  refine ⟨by decide, by decide, by decide⟩

/-- C8 amended: a datagram is handled as a Subscription message if and only
if its text STARTS WITH `SUBSCRIBE` (the leading token need not equal
`SUBSCRIBE`); otherwise it is handled as a candidate position report.
Classification itself never fails — it only selects the handler. -/
theorem C8_classify_amended (env : ℕ → SendOutcome) (src : UDPAddr) (message : List Char)
    (st : ServerState) :
    (classify message = .subscription ↔ subscribeToken.isPrefixOf message = true) ∧
    (classify message = .position ↔ subscribeToken.isPrefixOf message = false) ∧
    (classify message = .subscription →
      handlePacket env src message st =
        (⟨st.fleet, (handleSubscriberPacket src message st.subscribers).1⟩,
          (handleSubscriberPacket src message st.subscribers).2)) ∧
    (classify message = .position →
      handlePacket env src message st = handleVehiclePacket env message st) := by
  unfold classify handlePacket
  by_cases h : subscribeToken.isPrefixOf message = true
  · simp [h]
  · simp [h, Bool.of_not_eq_true h]

/-- Witness for the amended C8: a `SUBSCRIBE`-prefixed message is routed to
the subscription handler and a position report to the vehicle handler. -/
theorem C8_classify_amended_witness :
    handlePacket envOk addrB "SUBSCRIBE V1".toList emptyState =
      (⟨emptyState.fleet,
          (handleSubscriberPacket addrB "SUBSCRIBE V1".toList emptyState.subscribers).1⟩,
        (handleSubscriberPacket addrB "SUBSCRIBE V1".toList emptyState.subscribers).2) ∧
    handlePacket envOk agentSrc vehMsgV1 emptyState =
      handleVehiclePacket envOk vehMsgV1 emptyState := by
  exact ⟨(C8_classify_amended envOk addrB "SUBSCRIBE V1".toList emptyState).2.2.1 (by decide),
    (C8_classify_amended envOk agentSrc vehMsgV1 emptyState).2.2.2 (by decide)⟩

/-- C9: subscription registration does not deduplicate — a repeated
`SUBSCRIBE <vin>` from the same endpoint appends a second entry for that
endpoint — and a dispatched update sends one identical copy of the update
per entry of the subscriber list, in list order. -/
theorem C9_duplicate_subscribe (st : ServerState) (src : UDPAddr) (vin : List Char)
    (env : ℕ → SendOutcome) (h : ' ' ∉ vin) :
    ((handlePacket env src (subscribeToken ++ ' ' :: vin) st).1.subscribers vin =
        some ((st.subscribers vin).getD [] ++ [src])) ∧
    ((handlePacket env src (subscribeToken ++ ' ' :: vin)
          (handlePacket env src (subscribeToken ++ ' ' :: vin) st).1).1.subscribers vin =
        some ((st.subscribers vin).getD [] ++ [src, src])) ∧
    (∀ u subs i, sendLoop u subs envOk i = subs.map fun a => Output.sent a u) := by
  have hsplit : splitSpace (subscribeToken ++ ' ' :: vin) = [subscribeToken, vin] := by
    rw [splitSpace_append _ _ (by decide), splitSpace_nospace vin h]
  have hpre : subscribeToken.isPrefixOf (subscribeToken ++ ' ' :: vin) = true :=
    isPrefixOf_append_self _ _
  have step : ∀ s : ServerState,
      (handlePacket env src (subscribeToken ++ ' ' :: vin) s).1.subscribers vin =
        some ((s.subscribers vin).getD [] ++ [src]) := by
    intro s
    unfold handlePacket
    rw [if_pos hpre]
    unfold handleSubscriberPacket
    rw [hsplit]
    cases hv : s.subscribers vin with
    | none => simp [mapInsert, hv]
    | some l => simp [mapInsert, hv]
  refine ⟨step st, ?_, ?_⟩
  · rw [step _, step st]
    simp
  · intro u subs i
    induction subs generalizing i with
    | nil => rfl
    | cons a rest ih => simp [sendLoop, envOk, ih]

/-- Witness for C9: from the empty state, two identical subscriptions leave
two copies of the endpoint registered, and a two-subscriber dispatch under a
healthy network sends the same update to each entry in order. -/
theorem C9_duplicate_subscribe_witness :
    ((handlePacket envOk addrB (subscribeToken ++ ' ' :: "V1".toList)
          (handlePacket envOk addrB (subscribeToken ++ ' ' :: "V1".toList)
            emptyState).1).1.subscribers "V1".toList = some [addrB, addrB]) ∧
    sendLoop c2Update [addrA, addrB] envOk 0 =
      [Output.sent addrA c2Update, Output.sent addrB c2Update] := by
  have h := C9_duplicate_subscribe emptyState addrB "V1".toList envOk (by decide)
  exact ⟨by simpa using h.2.1, by simpa using h.2.2 c2Update [addrA, addrB] 0⟩

/-- C3: a successfully parsed position report appends exactly its sample to
the reported agent's history (created if absent), changes no other history
and no subscription data, and produces dispatch output exactly when the
agent has an entry in the subscriber map — in particular, with an empty (or
absent) subscriber list it produces no output at all, so no dispatch and no
error. -/
theorem C3_report_append_dispatch (env : ℕ → SendOutcome) (src : UDPAddr) (msg : List Char)
    (st : ServerState) (e0 vin e2 e3 : List Char) (ts : Timestamp) (lat lon : Dec)
    (hpre : ¬subscribeToken.isPrefixOf msg = true)
    (hsplit : splitSpace msg = [e0, vin, e2, e3])
    (hts : parseRFC3339 e0 = some ts)
    (hlat : parseFloatDec e2 = some lat)
    (hlon : parseFloatDec e3 = some lon) :
    ((handlePacket env src msg st).1.fleet vin =
        some ((st.fleet vin).getD [] ++ [⟨ts, lat, lon⟩])) ∧
    (∀ v2, v2 ≠ vin → (handlePacket env src msg st).1.fleet v2 = st.fleet v2) ∧
    ((handlePacket env src msg st).1.subscribers = st.subscribers) ∧
    ((handlePacket env src msg st).2 =
      match st.subscribers vin with
      | some l => sendSubscriberUpdate env l ((st.fleet vin).getD [] ++ [⟨ts, lat, lon⟩]) vin
      | none => []) ∧
    ((st.subscribers vin).getD [] = [] → (handlePacket env src msg st).2 = []) := by
  unfold handlePacket handleVehiclePacket
  rw [if_neg hpre]
  simp only [hsplit, hts, hlat, hlon]
  cases hf : st.fleet vin <;> cases hsub : st.subscribers vin <;>
    refine ⟨?_, fun v2 hv2 => ?_, ?_, ?_, fun hemp => ?_⟩ <;>
      simp_all [mapInsert, sendSubscriberUpdate, sendLoop]

/-- Witness for C3: a concrete report for V1 against the empty state creates
the history `[c5loc]` and, with no subscribers, produces no output; the same
holds for a report carrying a lenient-but-Go-valid timestamp (one-digit
hour, comma fraction, `+24:00` offset), which is accepted and appended. -/
theorem C3_report_append_dispatch_witness :
    ((handlePacket envOk agentSrc vehMsgV1 emptyState).1.fleet "V1".toList = some [c5loc]) ∧
    ((handlePacket envOk agentSrc vehMsgV1 emptyState).2 = []) ∧
    ((handlePacket envOk agentSrc lenientMsg emptyState).1.fleet "V1".toList =
      some [⟨⟨2024, 1, 1, 5, 4, 5, 500000000, 1440⟩, ⟨1, 0⟩, ⟨2, 0⟩⟩]) := by
  have h := C3_report_append_dispatch envOk agentSrc vehMsgV1 emptyState
    "2024-01-01T00:00:00.000000000Z".toList "V1".toList "53.344496".toList "-6.259427".toList
    ⟨2024, 1, 1, 0, 0, 0, 0, 0⟩ ⟨53344496, 6⟩ ⟨-6259427, 6⟩
    (by decide) (by decide) (by decide) (by decide) (by decide)
  have h2 := C3_report_append_dispatch envOk agentSrc lenientMsg emptyState
    "2024-01-01T5:04:05,5+24:00".toList "V1".toList "1".toList "2".toList
    ⟨2024, 1, 1, 5, 4, 5, 500000000, 1440⟩ ⟨1, 0⟩ ⟨2, 0⟩
    (by decide) (by decide) (by decide) (by decide) (by decide)
  exact ⟨h.1, h.2.2.2.2 (by decide), h2.1⟩

/-- One server step changes the history of an agent either not at all or by
appending exactly the sample parsed from the processed datagram. -/
lemma step_fleet_change (env : ℕ → SendOutcome) (src : UDPAddr) (msg : List Char)
    (st : ServerState) (vin : List Char) :
    (handlePacket env src msg st).1.fleet vin = st.fleet vin ∨
    (∃ e0 e2 e3 ts lat lon, splitSpace msg = [e0, vin, e2, e3] ∧
      parseRFC3339 e0 = some ts ∧ parseFloatDec e2 = some lat ∧ parseFloatDec e3 = some lon ∧
      (handlePacket env src msg st).1.fleet vin =
        some ((st.fleet vin).getD [] ++ [⟨ts, lat, lon⟩])) := by
  unfold handlePacket handleVehiclePacket
  by_cases hpre : subscribeToken.isPrefixOf msg = true
  · rw [if_pos hpre]
    left
    rfl
  · rw [if_neg hpre]
    rcases hs : splitSpace msg with _ | ⟨t0, _ | ⟨t1, _ | ⟨t2, _ | ⟨t3, _ | ⟨t4, rest⟩⟩⟩⟩⟩
    · simp [hs]
    · simp [hs]
    · simp [hs]
    · simp [hs]
    · simp only [hs]
      cases hts : parseRFC3339 t0 with
      | none => simp [hts]
      | some ts =>
        simp only [hts]
        cases hlat : parseFloatDec t2 with
        | none => simp [hlat]
        | some lat =>
          simp only [hlat]
          cases hlon : parseFloatDec t3 with
          | none => simp [hlon]
          | some lon =>
            simp only [hlon]
            by_cases hv : vin = t1
            · subst hv
              right
              refine ⟨t0, t2, t3, ts, lat, lon, rfl, hts, hlat, hlon, ?_⟩
              cases hsub : st.subscribers vin <;> cases hf : st.fleet vin <;>
                simp [mapInsert, hsub, hf]
            · left
              cases hsub : st.subscribers t1 <;> simp [mapInsert, hsub, hv]
    · simp [hs]

/-- Over any datagram sequence the reachable history of an agent only grows
by a suffix, and an existing map entry never disappears. -/
lemma run_fleet_append (ds : List Datagram) (st : ServerState) (vin : List Char) :
    ∃ tail : List Location,
      ((runServer st ds).1.fleet vin).getD [] = (st.fleet vin).getD [] ++ tail ∧
      ((st.fleet vin).isSome = true → ((runServer st ds).1.fleet vin).isSome = true) := by
  induction ds generalizing st with
  | nil => exact ⟨[], by simp [runServer], fun h => by simpa [runServer] using h⟩
  | cons d ds ih =>
    have hrun : (runServer st (d :: ds)).1 =
        (runServer (handlePacket d.env d.source d.message st).1 ds).1 := rfl
    rcases step_fleet_change d.env d.source d.message st vin with heq |
      ⟨e0, e2, e3, ts, lat, lon, _, _, _, _, happ⟩
    · obtain ⟨tail, h1, h2⟩ := ih ((handlePacket d.env d.source d.message st).1)
      refine ⟨tail, ?_, ?_⟩
      · rw [hrun, h1, heq]
      · intro hsome
        rw [hrun]
        exact h2 (by rw [heq]; exact hsome)
    · obtain ⟨tail, h1, h2⟩ := ih ((handlePacket d.env d.source d.message st).1)
      refine ⟨⟨ts, lat, lon⟩ :: tail, ?_, ?_⟩
      · rw [hrun, h1, happ]
        simp
      · intro _
        rw [hrun]
        exact h2 (by rw [happ]; rfl)

/-- C6: for every inbound datagram and every agent, one server step either
leaves that agent's history untouched or appends exactly the one sample
parsed from a successful position report at its end; consequently over any
datagram sequence a history only ever grows by a suffix and fleet entries
are never deleted. -/
theorem C6_history_append_only :
    (∀ env src msg st vin,
      (handlePacket env src msg st).1.fleet vin = st.fleet vin ∨
      (∃ e0 e2 e3 ts lat lon, splitSpace msg = [e0, vin, e2, e3] ∧
        parseRFC3339 e0 = some ts ∧ parseFloatDec e2 = some lat ∧
        parseFloatDec e3 = some lon ∧
        (handlePacket env src msg st).1.fleet vin =
          some ((st.fleet vin).getD [] ++ [⟨ts, lat, lon⟩]))) ∧
    (∀ st ds vin, ∃ tail : List Location,
      ((runServer st ds).1.fleet vin).getD [] = (st.fleet vin).getD [] ++ tail ∧
      ((st.fleet vin).isSome = true → ((runServer st ds).1.fleet vin).isSome = true)) :=
  ⟨fun env src msg st vin => step_fleet_change env src msg st vin,
    fun st ds vin => run_fleet_append ds st vin⟩

/-- Witness for C6: the subscribe-then-report scenario run only appends to
V1's (initially absent) history. -/
theorem C6_history_append_only_witness :
    ∃ tail : List Location,
      ((runServer emptyState c5ds).1.fleet "V1".toList).getD [] =
        (emptyState.fleet "V1".toList).getD [] ++ tail ∧
      ((emptyState.fleet "V1".toList).isSome = true →
        ((runServer emptyState c5ds).1.fleet "V1".toList).isSome = true) :=
  C6_history_append_only.2 emptyState c5ds "V1".toList

/-- Counterexample for C5: the subscribe-then-report scenario produces
exactly one outbound datagram to the subscriber, but its payload is NOT the
claimed string — Go's `time.RFC3339Nano` formatting strips the all-zero
fractional second, so the echoed timestamp reads `2024-01-01T00:00:00Z`,
not `2024-01-01T00:00:00.000000000Z`. -/
theorem C5_scenario_counterexample :
    (runServer emptyState c5ds).2 = [Output.sent addrA c5update] ∧
    renderUpdate c5update ≠ c5claimedPayload :=
  ⟨by decide, by decide⟩

/-- C5 amended: the scenario produces exactly one outbound datagram, to the
subscriber, with payload
`2024-01-01T00:00:00Z V1 53.344496 -6.259427 -1.000000`. -/
theorem C5_scenario_amended :
    (runServer emptyState c5ds).2 = [Output.sent addrA c5update] ∧
    renderUpdate c5update = c5actualPayload :=
  ⟨by decide, by decide⟩

/-- C7: the great-circle distance of the code is symmetric in its two
points, and the distance from any point to itself is zero. -/
theorem C7_distance_symm_zero :
    (∀ lat1 long1 lat2 long2 : ℝ,
        getDistance lat1 long1 lat2 long2 = getDistance lat2 long2 lat1 long1) ∧
    (∀ lat long : ℝ, getDistance lat long lat long = 0) :=
  ⟨getDistance_comm, getDistance_self⟩

end Fleetsim
